import Mathlib

/-!
Verification of the TribalGIS extraction-to-persistence core (`app.py`).

The development shallowly embeds the three request handlers of the core —
`/extract` (OCR, NER, geocoding), `/save` (claim and point inserts followed by a
single commit) and `/markers` (all points, newest first) — together with the
two-table SQLite schema `claims(id, filename, text, entities, saved_at)` and
`points(id, claim_id, label, name, lat, lon, seq)`.

Modelling conventions:
* Latitudes and longitudes pass through the pipeline opaquely (no arithmetic is
  performed on them), so they are modelled as integers.
* JSON objects reaching `/save` may lack keys, so every field of the payload
  entities is an `Option`; a missing key models a Python `KeyError` site.
* External effects are parameters: the OCR adapter is an `Except` value, the
  NER adapter a function from text to spans, the geocoder a function from a
  span text to `Except error (Option coord)` (exception / no match / match).
* SQLite failures are injected through a `StorageModel` oracle saying whether
  a given `cur.execute` or `commit` call raises; sqlite row ids are modelled
  by `nextClaimId` / `nextPointId` counters.  An uncommitted transaction is
  rolled back when the per-request connection closes, so a handler that never
  reaches `db.commit()` returns the database unchanged.
-/

namespace TribalGIS

/-! ### Data model -/

/-- A latitude/longitude pair as returned by a successful geocoder lookup. -/
structure Coord where
  lat : Int
  lon : Int
deriving Repr, DecidableEq

/-- The JSON object stored under the key `coordinates` of an entity.  Either
key may be absent in a hand-crafted `/save` payload. -/
structure CoordJson where
  latv : Option Int
  lonv : Option Int
deriving Repr, DecidableEq

/-- An entity dictionary as produced by `/extract` and consumed by `/save`:
`{"label": .., "text": .., "seq": .., "coordinates"?: .., "geo_error"?: ..}`.
Every field is optional because a `/save` payload is arbitrary JSON. -/
structure EntityJson where
  label : Option String
  text : Option String
  seqf : Option Nat
  coordinates : Option CoordJson
  geo_error : Option String
deriving Repr, DecidableEq

/-- One named-entity span `(ent.label_, ent.text)` yielded by the spaCy model. -/
structure Span where
  label : String
  text : String
deriving Repr, DecidableEq

/-- A row of the `claims` table (the `saved_at` timestamp column is defaulted
by SQLite and never read by the core, so it is omitted). -/
structure ClaimRow where
  id : Nat
  filename : String
  text : String
  entities : String
deriving Repr, DecidableEq

/-- A row of the `points` table. -/
structure PointRow where
  id : Nat
  claim_id : Nat
  label : String
  name : String
  lat : Int
  lon : Int
  seq : Nat
deriving Repr, DecidableEq

/-- The persisted database state: the two tables plus the next sqlite rowid
of each (`AUTOINCREMENT` counters). -/
structure DB where
  claims : List ClaimRow
  points : List PointRow
  nextClaimId : Nat
  nextPointId : Nat
deriving Repr, DecidableEq

/-- The state created by `init_db`: both tables empty, rowids starting at 1. -/
def initDB : DB := ⟨[], [], 1, 1⟩

/-! ### The `/extract` pipeline -/

/-- The geocoding adapter: maps an entity text to an exception message, no
match, or a single best match — `geocode(ent.text)` in the source. -/
abbrev GeoFn := String → Except String (Option Coord)

/-- The label allow-list of the geocode gate in `extract`. -/
def allowedLabels : List String := ["GPE", "LOC", "FAC", "NORP", "ORG"]

/-- `ent.label_ in ("GPE","LOC","FAC","NORP","ORG") and len(ent.text) < 120`. -/
def geoAttempt (s : Span) : Bool :=
  allowedLabels.contains s.label && s.text.length < 120

/-- Build the entity dictionary for one span: start from
`{"label": .., "text": .., "seq": seq}` and, when the geocode gate passes,
attach `coordinates` on a match or `geo_error` on an exception.  A no-match
(`place` falsy) attaches neither. -/
def mkEnt (geo : GeoFn) (s : Span) (seq : Nat) : EntityJson :=
  let base : EntityJson :=
    { label := some s.label, text := some s.text, seqf := some seq,
      coordinates := none, geo_error := none }
  if geoAttempt s then
    match geo s.text with
    | .ok (some place) =>
        { base with coordinates := some ⟨some place.lat, some place.lon⟩ }
    | .ok none => base
    | .error ge => { base with geo_error := some ge }
  else base

/-- The `for ent in doc.ents` loop of `extract`: the first argument is the
running `seq` counter (incremented before each entity is built). -/
def extractLoop (geo : GeoFn) : Nat → List Span → List EntityJson
  | _, [] => []
  | seq, s :: rest => mkEnt geo s (seq + 1) :: extractLoop geo (seq + 1) rest

/-- A JSON response of the `/extract` handler. -/
inductive ExtractResp where
  | ok (text : String) (entities : List EntityJson)
  | err (status : Nat) (msg : String)
deriving Repr, DecidableEq

/-- The error body produced when `pytesseract` raises. -/
def ocrFailMsg (e : String) : String := "OCR failed: " ++ e

/-- The `/extract` handler.  `hasFile` models `"file" in request.files`; `ocr`
is the outcome of `pytesseract.image_to_string`; `ner` maps the OCR text to
the spaCy spans.  The handler never touches the database, which is threaded
through unchanged. -/
def extractHandler (hasFile : Bool) (ocr : Except String String)
    (ner : String → List Span) (geo : GeoFn) (db : DB) : ExtractResp × DB :=
  match hasFile with
  | false => (.err 400 "No file uploaded", db)
  | true =>
    match ocr with
    | .error e => (.err 500 (ocrFailMsg e), db)
    | .ok t => (.ok t (extractLoop geo 0 (ner t)), db)

/-! ### The `/save` handler -/

/-- Fault oracle for the storage layer of one `/save` call: whether the claim
`INSERT` raises, whether the k-th point `INSERT` raises (k counts previous
point inserts of the call) and whether the final `db.commit()` raises.  The
attached string is the `str(ex)` of the raised `sqlite3.Error`. -/
structure StorageModel where
  claimInsertErr : Option String
  pointInsertErr : Nat → Option String
  commitErr : Option String

/-- A storage layer that never raises. -/
def okStorage : StorageModel := ⟨none, fun _ => none, none⟩

/-- No storage call of this `/save` request raises. -/
def goodStorage (st : StorageModel) : Prop :=
  st.claimInsertErr = none ∧ (∀ k, st.pointInsertErr k = none) ∧
    st.commitErr = none

/-- The JSON body of a `/save` request; each key may be absent, the handler
reads them with `payload.get(key, default)`. -/
structure Payload where
  text : Option String
  entities : Option (List EntityJson)
  filename : Option String
deriving Repr, DecidableEq

/-- Python single-quoting of a string, as inside `str(...)` of a dict. -/
def pyQuote (s : String) : String := "\x27" ++ s ++ "\x27"

/-- `str(...)` of a `coordinates` dict. -/
def strCoordJson (c : CoordJson) : String :=
  "\x7b" ++ String.intercalate ", "
    ((match c.latv with
      | some v => [pyQuote "lat" ++ ": " ++ toString v]
      | none => []) ++
     (match c.lonv with
      | some v => [pyQuote "lon" ++ ": " ++ toString v]
      | none => [])) ++ "\x7d"

/-- `str(...)` of one entity dict, keys in construction order. -/
def strEntityJson (e : EntityJson) : String :=
  "\x7b" ++ String.intercalate ", "
    ((match e.label with
      | some v => [pyQuote "label" ++ ": " ++ pyQuote v]
      | none => []) ++
     (match e.text with
      | some v => [pyQuote "text" ++ ": " ++ pyQuote v]
      | none => []) ++
     (match e.seqf with
      | some v => [pyQuote "seq" ++ ": " ++ toString v]
      | none => []) ++
     (match e.coordinates with
      | some c => [pyQuote "coordinates" ++ ": " ++ strCoordJson c]
      | none => []) ++
     (match e.geo_error with
      | some v => [pyQuote "geo_error" ++ ": " ++ pyQuote v]
      | none => [])) ++ "\x7d"

/-- `str(entities)`: the serialization stored in the `entities` column. -/
def strEntities (es : List EntityJson) : String :=
  "[" ++ String.intercalate ", " (es.map strEntityJson) ++ "]"

/-- `str(KeyError(k))` — Python renders the missing key single-quoted. -/
def keyErrMsg (k : String) : String := "\x27" ++ k ++ "\x27"

/-- The `for e in entities` loop of `save`: skip entities without a
`coordinates` key, bump the local `seq`, read `lat` and `lon` (a `KeyError`
if absent) and issue the point `INSERT`.  Arguments after the list: the local
`seq` counter so far, then the next point rowid.  Returns the inserted rows
and the final next rowid, or the message of the first exception. -/
def savePoints (st : StorageModel) (cid : Nat) :
    List EntityJson → Nat → Nat → Except String (List PointRow × Nat)
  | [], _, pid => .ok ([], pid)
  | e :: rest, seq, pid =>
    match e.coordinates with
    | none => savePoints st cid rest seq pid
    | some c =>
      match c.latv with
      | none => .error (keyErrMsg "lat")
      | some lat =>
        match c.lonv with
        | none => .error (keyErrMsg "lon")
        | some lon =>
          match st.pointInsertErr seq with
          | some m => .error m
          | none =>
            match savePoints st cid rest (seq + 1) (pid + 1) with
            | .error m => .error m
            | .ok (pts, pid2) =>
              .ok ({ id := pid, claim_id := cid, label := e.label.getD "",
                     name := e.text.getD "", lat := lat, lon := lon,
                     seq := seq + 1 } :: pts, pid2)

/-- The `/save` handler.  `payload = none` models a missing/falsy JSON body.
Returns the persisted database after the request (an uncommitted transaction
rolls back when the connection closes) together with the JSON outcome:
`{"success": True, "claim_id": cid}` or `{"error": msg}`. -/
def save (st : StorageModel) (db : DB) (payload : Option Payload) :
    DB × Except String Nat :=
  match payload with
  | none => (db, .error "No JSON body")
  | some p =>
    let text := p.text.getD ""
    let entities := p.entities.getD []
    let filename := p.filename.getD "uploaded"
    match st.claimInsertErr with
    | some m => (db, .error m)
    | none =>
      let claim_id := db.nextClaimId
      let newClaim : ClaimRow :=
        ⟨claim_id, filename, text, strEntities entities⟩
      match savePoints st claim_id entities 0 db.nextPointId with
      | .error m => (db, .error m)
      | .ok (pts, pid2) =>
        match st.commitErr with
        | some m => (db, .error m)
        | none =>
          ({ claims := db.claims ++ [newClaim], points := db.points ++ pts,
             nextClaimId := claim_id + 1, nextPointId := pid2 },
           .ok claim_id)

/-! ### The `/markers` handler and operation sequences -/

/-- `SELECT .. FROM points p ORDER BY p.id DESC`: every point row, sorted by
descending rowid. -/
def markers (db : DB) : List PointRow :=
  db.points.mergeSort (fun a b => decide (b.id ≤ a.id))

/-- One request against the core (the read-only endpoints carry no data that
could change the store). -/
inductive Op where
  | doSave (st : StorageModel) (p : Option Payload)
  | doMarkers
  | doDbData

/-- Effect of one request on the persisted database. -/
def step (db : DB) : Op → DB
  | .doSave st p => (save st db p).1
  | .doMarkers => db
  | .doDbData => db

/-- Persisted database after a sequence of requests. -/
def runOps : DB → List Op → DB
  | db, [] => db
  | db, op :: rest => runOps (step db op) rest

/-! ### Derived specification functions -/

/-- An entity dict whose `coordinates` value, when present, has both `lat`
and `lon` — i.e. reading them raises no `KeyError`. -/
def entOK (e : EntityJson) : Bool :=
  match e.coordinates with
  | none => true
  | some c => c.latv.isSome && c.lonv.isSome

/-- The coordinate-carrying entities of a payload, in order. -/
def geocoded (es : List EntityJson) : List EntityJson :=
  es.filter (fun e => e.coordinates.isSome)

/-- The stored latitude of an entity (0 when a key is absent, matching the
row `savePoints` would build only on well-formed entities). -/
def entLat (e : EntityJson) : Int :=
  match e.coordinates with
  | some c => c.latv.getD 0
  | none => 0

/-- The stored longitude of an entity. -/
def entLon (e : EntityJson) : Int :=
  match e.coordinates with
  | some c => c.lonv.getD 0
  | none => 0

/-- The point rows a fault-free `/save` inserts for a payload: one per
coordinate-carrying entity, consecutive rowids from `pid`, and a locally
recomputed `seq` continuing from the counter `seq`. -/
def specPoints (cid : Nat) : List EntityJson → Nat → Nat → List PointRow
  | [], _, _ => []
  | e :: rest, seq, pid =>
    match e.coordinates with
    | none => specPoints cid rest seq pid
    | some _ =>
      { id := pid, claim_id := cid, label := e.label.getD "",
        name := e.text.getD "", lat := entLat e, lon := entLon e,
        seq := seq + 1 } :: specPoints cid rest (seq + 1) (pid + 1)

/-- The fields of an entity that `/save` reads when building a point row —
everything except the original `seq` and `geo_error`. -/
def entCore (e : EntityJson) : Option String × Option String × Option CoordJson :=
  (e.label, e.text, e.coordinates)

/-- The claim row a fault-free `/save` inserts for payload `p` against `db`. -/
def specClaim (db : DB) (p : Payload) : ClaimRow :=
  ⟨db.nextClaimId, p.filename.getD "uploaded", p.text.getD "",
   strEntities (p.entities.getD [])⟩

/-! ### Lemmas about the point-insert loop -/

theorem savePoints_eq_ok (st : StorageModel) (cid : Nat)
    (hpt : ∀ k, st.pointInsertErr k = none) :
    ∀ (es : List EntityJson) (seq pid : Nat),
      (∀ e ∈ es, entOK e = true) →
      savePoints st cid es seq pid =
        .ok (specPoints cid es seq pid, pid + (geocoded es).length)
  | [], seq, pid, _ => by simp [savePoints, specPoints, geocoded]
  | e :: rest, seq, pid, hwf => by
    have he : entOK e = true := hwf e (List.mem_cons_self e rest)
    have hrest : ∀ x ∈ rest, entOK x = true :=
      fun x hx => hwf x (List.mem_cons_of_mem e hx)
    match hc : e.coordinates with
    | none =>
      have hgeo : geocoded (e :: rest) = geocoded rest := by
        simp [geocoded, hc]
      rw [savePoints, specPoints]
      simp only [hc, hgeo]
      exact savePoints_eq_ok st cid hpt rest seq pid hrest
    | some c =>
      have hok : c.latv.isSome && c.lonv.isSome := by
        simpa [entOK, hc] using he
      obtain ⟨lat, hlat⟩ := Option.isSome_iff_exists.mp
        (by exact (Bool.and_eq_true _ _ ▸ hok).1)
      obtain ⟨lon, hlon⟩ := Option.isSome_iff_exists.mp
        (by exact (Bool.and_eq_true _ _ ▸ hok).2)
      have hgeo : (geocoded (e :: rest)).length = (geocoded rest).length + 1 := by
        simp [geocoded, hc]
      rw [savePoints, specPoints]
      simp only [hc, hlat, hlon, hpt seq,
        savePoints_eq_ok st cid hpt rest (seq + 1) (pid + 1) hrest]
      have hlat2 : entLat e = lat := by simp [entLat, hc, hlat]
      have hlon2 : entLon e = lon := by simp [entLon, hc, hlon]
      have hadd : pid + 1 + (geocoded rest).length =
          pid + (geocoded (e :: rest)).length := by omega
      rw [hlat2, hlon2, hadd]

theorem savePoints_error_storage (st : StorageModel) (cid : Nat) :
    ∀ (es : List EntityJson) (seq pid : Nat) (m : String),
      (∀ e ∈ es, entOK e = true) →
      savePoints st cid es seq pid = .error m →
      ∃ k, st.pointInsertErr k = some m
  | [], seq, pid, m, _, h => by simp [savePoints] at h
  | e :: rest, seq, pid, m, hwf, h => by
    have he : entOK e = true := hwf e (List.mem_cons_self e rest)
    have hrest : ∀ x ∈ rest, entOK x = true :=
      fun x hx => hwf x (List.mem_cons_of_mem e hx)
    rw [savePoints] at h
    match hc : e.coordinates with
    | none =>
      simp only [hc] at h
      exact savePoints_error_storage st cid rest seq pid m hrest h
    | some c =>
      have hok : c.latv.isSome && c.lonv.isSome := by
        simpa [entOK, hc] using he
      obtain ⟨lat, hlat⟩ := Option.isSome_iff_exists.mp
        (by exact (Bool.and_eq_true _ _ ▸ hok).1)
      obtain ⟨lon, hlon⟩ := Option.isSome_iff_exists.mp
        (by exact (Bool.and_eq_true _ _ ▸ hok).2)
      simp only [hc, hlat, hlon] at h
      match hp : st.pointInsertErr seq with
      | some m2 =>
        simp only [hp, Except.error.injEq] at h
        exact ⟨seq, by rw [hp, h]⟩
      | none =>
        simp only [hp] at h
        match hrec : savePoints st cid rest (seq + 1) (pid + 1) with
        | .error m3 =>
          simp only [hrec, Except.error.injEq] at h
          exact h ▸
            savePoints_error_storage st cid rest (seq + 1) (pid + 1) m3 hrest hrec
        | .ok pr =>
          simp [hrec] at h

theorem specPoints_length (cid : Nat) :
    ∀ (es : List EntityJson) (seq pid : Nat),
      (specPoints cid es seq pid).length = (geocoded es).length
  | [], _, _ => by simp [specPoints, geocoded]
  | e :: rest, seq, pid => by
    match hc : e.coordinates with
    | none =>
      rw [specPoints]
      simp only [hc]
      simpa [geocoded, hc] using specPoints_length cid rest seq pid
    | some c =>
      rw [specPoints]
      simp only [hc]
      simpa [geocoded, hc] using specPoints_length cid rest (seq + 1) (pid + 1)

theorem specPoints_seq_map (cid : Nat) :
    ∀ (es : List EntityJson) (seq pid : Nat),
      (specPoints cid es seq pid).map (fun r => r.seq) =
        List.range' (seq + 1) (geocoded es).length
  | [], _, _ => by simp [specPoints, geocoded]
  | e :: rest, seq, pid => by
    match hc : e.coordinates with
    | none =>
      rw [specPoints]
      simp only [hc]
      simpa [geocoded, hc] using specPoints_seq_map cid rest seq pid
    | some c =>
      rw [specPoints]
      simp only [hc]
      have hlen : (geocoded (e :: rest)).length = (geocoded rest).length + 1 := by
        simp [geocoded, hc]
      rw [hlen, List.range'_succ, List.map_cons,
        specPoints_seq_map cid rest (seq + 1) (pid + 1)]

theorem specPoints_id_map (cid : Nat) :
    ∀ (es : List EntityJson) (seq pid : Nat),
      (specPoints cid es seq pid).map (fun r => r.id) =
        List.range' pid (geocoded es).length
  | [], _, _ => by simp [specPoints, geocoded]
  | e :: rest, seq, pid => by
    match hc : e.coordinates with
    | none =>
      rw [specPoints]
      simp only [hc]
      simpa [geocoded, hc] using specPoints_id_map cid rest seq pid
    | some c =>
      rw [specPoints]
      simp only [hc]
      have hlen : (geocoded (e :: rest)).length = (geocoded rest).length + 1 := by
        simp [geocoded, hc]
      rw [hlen, List.range'_succ, List.map_cons,
        specPoints_id_map cid rest (seq + 1) (pid + 1)]

theorem specPoints_claim_id (cid : Nat) :
    ∀ (es : List EntityJson) (seq pid : Nat),
      ∀ r ∈ specPoints cid es seq pid, r.claim_id = cid
  | [], _, _ => by simp [specPoints]
  | e :: rest, seq, pid => by
    match hc : e.coordinates with
    | none =>
      rw [specPoints]
      simp only [hc]
      exact specPoints_claim_id cid rest seq pid
    | some c =>
      rw [specPoints]
      simp only [hc]
      intro r hr
      rcases List.mem_cons.mp hr with h | h
      · rw [h]
      · exact specPoints_claim_id cid rest (seq + 1) (pid + 1) r h

/-- `specPoints` reads only the `label`, `text` and `coordinates` fields of
each entity — never the original `seq`. -/
theorem specPoints_congr (cid : Nat) :
    ∀ (es es2 : List EntityJson) (seq pid : Nat),
      es.map entCore = es2.map entCore →
      specPoints cid es seq pid = specPoints cid es2 seq pid
  | [], es2, _, _, h => by
    have : es2 = [] := by
      cases es2 with
      | nil => rfl
      | cons b bs => simp at h
    rw [this]
  | e :: rest, es2, seq, pid, h => by
    cases es2 with
    | nil => simp at h
    | cons b bs =>
      simp only [List.map_cons, List.cons.injEq] at h
      obtain ⟨hcore, hrest⟩ := h
      simp only [entCore, Prod.mk.injEq] at hcore
      obtain ⟨hl, ht, hc⟩ := hcore
      rw [specPoints, specPoints]
      match hco : e.coordinates with
      | none =>
        simp only [hco, hc ▸ hco]
        exact specPoints_congr cid rest bs seq pid hrest
      | some c =>
        have hb : b.coordinates = some c := hc ▸ hco
        simp only [hco, hb]
        rw [specPoints_congr cid rest bs (seq + 1) (pid + 1) hrest]
        have : entLat e = entLat b ∧ entLon e = entLon b := by
          constructor <;> simp [entLat, entLon, hco, hb]
        rw [hl, ht, this.1, this.2]

/-! ### Lemmas about `/save` -/

/-- A fault-free `/save` on a well-formed payload: one new claim row, one new
point row per coordinate-carrying entity, `seq` recomputed from 1, and the
new claim id returned. -/
theorem save_ok (st : StorageModel) (db : DB) (p : Payload)
    (hst : goodStorage st)
    (hwf : ∀ e ∈ p.entities.getD [], entOK e = true) :
    save st db (some p) =
      ({ claims := db.claims ++ [specClaim db p],
         points := db.points ++
           specPoints db.nextClaimId (p.entities.getD []) 0 db.nextPointId,
         nextClaimId := db.nextClaimId + 1,
         nextPointId := db.nextPointId + (geocoded (p.entities.getD [])).length },
       .ok db.nextClaimId) := by
  obtain ⟨hci, hpt, hco⟩ := hst
  rw [save.eq_def]
  simp only [hci, hco,
    savePoints_eq_ok st db.nextClaimId hpt (p.entities.getD []) 0 db.nextPointId hwf]
  rfl

/-- Whenever `/save` answers with an error, the persisted database is exactly
the one before the call: `db.commit()` is only reached on the success path,
and closing the connection rolls the open transaction back. -/
theorem save_error_eq (st : StorageModel) (db : DB) (p : Option Payload)
    (m : String) (h : (save st db p).2 = .error m) : (save st db p).1 = db := by
  rw [save.eq_def] at h ⊢
  match p with
  | none => rfl
  | some p =>
    match hci : st.claimInsertErr with
    | some m2 => simp only [hci] at h ⊢
    | none =>
      simp only [hci] at h ⊢
      match hsp : savePoints st db.nextClaimId (p.entities.getD []) 0 db.nextPointId with
      | .error m3 => simp only [hsp] at h ⊢
      | .ok pr =>
        simp only [hsp] at h ⊢
        match hco : st.commitErr with
        | some m4 => simp only [hco] at h ⊢
        | none =>
          simp only [hco] at h
          exact Except.noConfusion h

/-! ### Lemmas about the extraction loop -/

theorem mkEnt_seqf (geo : GeoFn) (s : Span) (n : Nat) :
    (mkEnt geo s n).seqf = some n := by
  simp only [mkEnt]
  split
  · split <;> rfl
  · rfl

theorem mkEnt_label (geo : GeoFn) (s : Span) (n : Nat) :
    (mkEnt geo s n).label = some s.label := by
  simp only [mkEnt]
  split
  · split <;> rfl
  · rfl

theorem mkEnt_text (geo : GeoFn) (s : Span) (n : Nat) :
    (mkEnt geo s n).text = some s.text := by
  simp only [mkEnt]
  split
  · split <;> rfl
  · rfl

/-- Below the geocode gate nothing is attached and the geocoder is not
consulted at all. -/
theorem mkEnt_not_attempted (geo geo2 : GeoFn) (s : Span) (n : Nat)
    (h : geoAttempt s = false) :
    (mkEnt geo s n).coordinates = none ∧ (mkEnt geo s n).geo_error = none ∧
      mkEnt geo s n = mkEnt geo2 s n := by
  simp [mkEnt, h]

theorem mkEnt_geo_match (geo : GeoFn) (s : Span) (n : Nat) (c : Coord)
    (h : geoAttempt s = true) (hg : geo s.text = .ok (some c)) :
    (mkEnt geo s n).coordinates = some ⟨some c.lat, some c.lon⟩ ∧
      (mkEnt geo s n).geo_error = none := by
  simp [mkEnt, h, hg]

theorem mkEnt_geo_nomatch (geo : GeoFn) (s : Span) (n : Nat)
    (h : geoAttempt s = true) (hg : geo s.text = .ok none) :
    (mkEnt geo s n).coordinates = none ∧ (mkEnt geo s n).geo_error = none := by
  simp [mkEnt, h, hg]

theorem mkEnt_geo_error (geo : GeoFn) (s : Span) (n : Nat) (m : String)
    (h : geoAttempt s = true) (hg : geo s.text = .error m) :
    (mkEnt geo s n).coordinates = none ∧ (mkEnt geo s n).geo_error = some m := by
  simp [mkEnt, h, hg]

theorem extractLoop_length (geo : GeoFn) :
    ∀ (spans : List Span) (k : Nat),
      (extractLoop geo k spans).length = spans.length
  | [], _ => rfl
  | s :: rest, k => by
    rw [extractLoop, List.length_cons, List.length_cons,
      extractLoop_length geo rest (k + 1)]

theorem extractLoop_getElem? (geo : GeoFn) :
    ∀ (spans : List Span) (k i : Nat),
      (extractLoop geo k spans)[i]? =
        (spans[i]?).map (fun s => mkEnt geo s (k + i + 1))
  | [], _, _ => by simp [extractLoop]
  | s :: rest, k, 0 => by simp [extractLoop]
  | s :: rest, k, i + 1 => by
    rw [extractLoop]
    simp only [List.getElem?_cons_succ]
    rw [extractLoop_getElem? geo rest (k + 1) i]
    have : k + 1 + i + 1 = k + (i + 1) + 1 := by omega
    rw [this]

theorem extractLoop_seq_map (geo : GeoFn) :
    ∀ (spans : List Span) (k : Nat),
      (extractLoop geo k spans).map (fun e => e.seqf) =
        (List.range' (k + 1) spans.length).map some
  | [], _ => rfl
  | s :: rest, k => by
    rw [extractLoop, List.length_cons, List.range'_succ, List.map_cons,
      List.map_cons, mkEnt_seqf, extractLoop_seq_map geo rest (k + 1)]

/-! ### Database invariant -/

/-- The point rows stored for one claim, in table order. -/
def pointsOf (db : DB) (cid : Nat) : List PointRow :=
  db.points.filter (fun r => r.claim_id == cid)

/-- The invariant maintained by the core on the persisted state: rowid
counters bound every stored id, every point references a stored claim, point
rowids are strictly increasing in insertion order, and within any one claim
the stored `seq` values are exactly `1, 2, ..., k` in insertion order. -/
structure DBinv (db : DB) : Prop where
  refsClaim : ∀ r ∈ db.points, ∃ c ∈ db.claims, c.id = r.claim_id
  claimIdLt : ∀ c ∈ db.claims, c.id < db.nextClaimId
  pointClaimIdLt : ∀ r ∈ db.points, r.claim_id < db.nextClaimId
  pointIdLt : ∀ r ∈ db.points, r.id < db.nextPointId
  pointIdMono : db.points.Pairwise (fun a b => a.id < b.id)
  seqDense : ∀ cid, (pointsOf db cid).map (fun r => r.seq) =
    List.range' 1 (pointsOf db cid).length

theorem DBinv_initDB : DBinv initDB := by
  refine ⟨?_, ?_, ?_, ?_, ?_, ?_⟩ <;> simp [initDB, pointsOf]

/-- Structural facts about any successful run of the point-insert loop,
regardless of storage faults or payload well-formedness: the inserted rows
carry consecutive `seq` values continuing the counter, consecutive rowids,
the final rowid counter, and the given claim id. -/
theorem savePoints_ok_inv (st : StorageModel) (cid : Nat) :
    ∀ (es : List EntityJson) (seq pid : Nat) (pts : List PointRow) (pid2 : Nat),
      savePoints st cid es seq pid = .ok (pts, pid2) →
      pts.map (fun r => r.seq) = List.range' (seq + 1) pts.length ∧
      pts.map (fun r => r.id) = List.range' pid pts.length ∧
      pid2 = pid + pts.length ∧
      ∀ r ∈ pts, r.claim_id = cid
  | [], seq, pid, pts, pid2, h => by
    rw [savePoints] at h
    simp only [Except.ok.injEq, Prod.mk.injEq] at h
    obtain ⟨h1, h2⟩ := h
    subst h1; subst h2
    simp
  | e :: rest, seq, pid, pts, pid2, h => by
    rw [savePoints] at h
    match hc : e.coordinates with
    | none =>
      simp only [hc] at h
      exact savePoints_ok_inv st cid rest seq pid pts pid2 h
    | some c =>
      simp only [hc] at h
      match hlat : c.latv with
      | none => simp [hlat] at h
      | some lat =>
        match hlon : c.lonv with
        | none => simp [hlat, hlon] at h
        | some lon =>
          simp only [hlat, hlon] at h
          match hp : st.pointInsertErr seq with
          | some m => simp [hp] at h
          | none =>
            simp only [hp] at h
            match hrec : savePoints st cid rest (seq + 1) (pid + 1) with
            | .error m => simp [hrec] at h
            | .ok (pts2, pid3) =>
              simp only [hrec, Except.ok.injEq, Prod.mk.injEq] at h
              obtain ⟨h1, h2⟩ := h
              obtain ⟨hs, hi, hf, hcid⟩ :=
                savePoints_ok_inv st cid rest (seq + 1) (pid + 1) pts2 pid3 hrec
              subst h1; subst h2
              refine ⟨?_, ?_, ?_, ?_⟩
              · rw [List.map_cons, hs, List.length_cons, List.range'_succ]
              · rw [List.map_cons, hi, List.length_cons, List.range'_succ]
              · rw [List.length_cons]; omega
              · intro r hr
                rcases List.mem_cons.mp hr with h | h
                · rw [h]
                · exact hcid r h

/-- Every `/save` call, faulty or not, preserves the invariant and only
appends to the `claims` table. -/
theorem DBinv_save (st : StorageModel) (db : DB) (p : Option Payload)
    (h : DBinv db) :
    DBinv (save st db p).1 ∧ ∃ t, (save st db p).1.claims = db.claims ++ t := by
  rw [save.eq_def]
  match p with
  | none => exact ⟨h, [], by simp⟩
  | some p =>
    match hci : st.claimInsertErr with
    | some m => exact ⟨h, [], by simp⟩
    | none =>
      simp only
      match hsp : savePoints st db.nextClaimId (p.entities.getD []) 0 db.nextPointId with
      | .error m => exact ⟨h, [], by simp⟩
      | .ok (pts, pid2) =>
        match hco : st.commitErr with
        | some m => exact ⟨h, [], by simp⟩
        | none =>
          simp only
          obtain ⟨hs, hi, hf, hcid⟩ :=
            savePoints_ok_inv st db.nextClaimId (p.entities.getD []) 0
              db.nextPointId pts pid2 hsp
          subst hf
          set newClaim : ClaimRow :=
            ⟨db.nextClaimId, p.filename.getD "uploaded", p.text.getD "",
             strEntities (p.entities.getD [])⟩ with hnc
          refine ⟨⟨?_, ?_, ?_, ?_, ?_, ?_⟩, [newClaim], rfl⟩
          · -- refsClaim
            intro r hr
            rcases List.mem_append.mp hr with hold | hnew
            · obtain ⟨c, hc1, hc2⟩ := h.refsClaim r hold
              exact ⟨c, List.mem_append_left _ hc1, hc2⟩
            · refine ⟨newClaim, List.mem_append_right _ (List.mem_singleton_self _), ?_⟩
              rw [hcid r hnew]
          · -- claimIdLt
            intro c hc
            rcases List.mem_append.mp hc with hold | hnew
            · exact Nat.lt_succ_of_lt (h.claimIdLt c hold)
            · rw [List.mem_singleton.mp hnew]
              exact Nat.lt_succ_self _
          · -- pointClaimIdLt
            intro r hr
            rcases List.mem_append.mp hr with hold | hnew
            · exact Nat.lt_succ_of_lt (h.pointClaimIdLt r hold)
            · rw [hcid r hnew]
              exact Nat.lt_succ_self _
          · -- pointIdLt
            intro r hr
            show r.id < db.nextPointId + pts.length
            rcases List.mem_append.mp hr with hold | hnew
            · have := h.pointIdLt r hold
              omega
            · have : r.id ∈ pts.map (fun r => r.id) := List.mem_map_of_mem _ hnew
              rw [hi] at this
              have := List.mem_range'_1.mp this
              omega
          · -- pointIdMono
            rw [List.pairwise_append]
            refine ⟨h.pointIdMono, ?_, ?_⟩
            · have : (pts.map (fun r => r.id)).Pairwise (· < ·) := by
                rw [hi]
                exact List.pairwise_lt_range' _ _
              exact List.pairwise_map.mp this
            · intro a ha b hb
              have hb2 : b.id ∈ pts.map (fun r => r.id) := List.mem_map_of_mem _ hb
              rw [hi] at hb2
              have := List.mem_range'_1.mp hb2
              have := h.pointIdLt a ha
              omega
          · -- seqDense
            intro cid
            simp only [pointsOf, List.filter_append]
            by_cases hcase : cid = db.nextClaimId
            · have hold : db.points.filter (fun r => r.claim_id == cid) = [] := by
                rw [List.filter_eq_nil_iff]
                intro r hr
                have := h.pointClaimIdLt r hr
                simp only [beq_iff_eq]
                omega
              have hnew : pts.filter (fun r => r.claim_id == cid) = pts := by
                rw [List.filter_eq_self]
                intro r hr
                simp [hcid r hr, hcase]
              rw [hold, hnew, List.nil_append]
              simpa using hs
            · have hnew : pts.filter (fun r => r.claim_id == cid) = [] := by
                rw [List.filter_eq_nil_iff]
                intro r hr
                simp only [beq_iff_eq]
                rw [hcid r hr]
                omega
              rw [hnew, List.append_nil]
              exact h.seqDense cid

/-- No request mutates the store except `/save`, and `/save` preserves the
invariant and appends to `claims`. -/
theorem DBinv_step (db : DB) (op : Op) (h : DBinv db) :
    DBinv (step db op) ∧ ∃ t, (step db op).claims = db.claims ++ t := by
  match op with
  | .doSave st p => exact DBinv_save st db p h
  | .doMarkers => exact ⟨h, [], by simp [step]⟩
  | .doDbData => exact ⟨h, [], by simp [step]⟩

theorem DBinv_runOps (db : DB) (ops : List Op) (h : DBinv db) :
    DBinv (runOps db ops) ∧ ∃ t, (runOps db ops).claims = db.claims ++ t := by
  induction ops generalizing db with
  | nil => exact ⟨h, [], by simp [runOps]⟩
  | cons op rest ih =>
    obtain ⟨h1, t1, ht1⟩ := DBinv_step db op h
    obtain ⟨h2, t2, ht2⟩ := ih (step db op) h1
    exact ⟨h2, t1 ++ t2, by rw [runOps, ht2, ht1, List.append_assoc]⟩

theorem runOps_append (db : DB) (l1 l2 : List Op) :
    runOps db (l1 ++ l2) = runOps (runOps db l1) l2 := by
  induction l1 generalizing db with
  | nil => rfl
  | cons op rest ih => rw [List.cons_append, runOps, runOps, ih]

/-! ### Lemmas about `/markers` -/

theorem markers_perm (db : DB) : (markers db).Perm db.points :=
  List.mergeSort_perm db.points _

theorem markers_sorted_ge (db : DB) :
    (markers db).Pairwise (fun a b => b.id ≤ a.id) := by
  have h : (db.points.mergeSort (fun a b => decide (b.id ≤ a.id))).Pairwise
      (fun a b : PointRow => decide (b.id ≤ a.id) = true) := by
    apply List.sorted_mergeSort
    · intro a b c h1 h2
      simp only [decide_eq_true_eq] at h1 h2 ⊢
      omega
    · intro a b
      simp only [Bool.or_eq_true, decide_eq_true_eq]
      omega
  exact h.imp (fun hab => of_decide_eq_true hab)

theorem markers_sorted_strict (db : DB) (h : DBinv db) :
    (markers db).Pairwise (fun a b => b.id < a.id) := by
  have hids : ((markers db).map (fun r => r.id)).Nodup := by
    have h1 : (db.points.map (fun r => r.id)).Nodup :=
      List.pairwise_map.mpr (h.pointIdMono.imp (fun hab => Nat.ne_of_lt hab))
    exact (((markers_perm db).map (fun r => r.id)).symm.nodup_iff).mp h1
  have hne : (markers db).Pairwise (fun a b => a.id ≠ b.id) :=
    List.pairwise_map.mp hids
  exact ((markers_sorted_ge db).and hne).imp
    (fun hab => by obtain ⟨h1, h2⟩ := hab; omega)

/-! ### Claim theorems -/

/-- C6: after every sequence of operations of this core, each stored Point
row references a Claim row that exists, within any single claim the `seq`
values of its Point rows are exactly `1, 2, ..., k` in insertion order, and
no operation ever deletes a Claim (the claims table only grows). -/
theorem claim_store_invariant (ops : List Op) :
    (∀ r ∈ (runOps initDB ops).points, ∃ c ∈ (runOps initDB ops).claims,
      c.id = r.claim_id) ∧
    (∀ cid, (pointsOf (runOps initDB ops) cid).map (fun r => r.seq) =
      List.range' 1 (pointsOf (runOps initDB ops) cid).length) ∧
    (∀ more, ∃ t2, (runOps initDB (ops ++ more)).claims =
      (runOps initDB ops).claims ++ t2) := by
  obtain ⟨hinv, _⟩ := DBinv_runOps initDB ops DBinv_initDB
  refine ⟨hinv.refsClaim, hinv.seqDense, fun more => ?_⟩
  rw [runOps_append]
  exact (DBinv_runOps (runOps initDB ops) more hinv).2

/-- C7: every `/markers` call returns all Point rows across all claims —
a permutation of the table, no filtering or pagination — ordered by strictly
descending row id, regardless of claim grouping. -/
theorem claim_markers_order (ops : List Op) :
    (markers (runOps initDB ops)).Perm (runOps initDB ops).points ∧
    (markers (runOps initDB ops)).Pairwise (fun a b => b.id < a.id) := by
  obtain ⟨hinv, _⟩ := DBinv_runOps initDB ops DBinv_initDB
  exact ⟨markers_perm _, markers_sorted_strict _ hinv⟩

/-- C8: when the OCR step fails, `/extract` aborts with the body
`{"error": "OCR failed: ..."}` and HTTP 500, performs no entity extraction
(the response is independent of the NER and geocoding adapters), returns no
entities, and leaves the claim/point store untouched. -/
theorem claim_ocr_failure (e : String) (ner ner2 : String → List Span)
    (geo geo2 : GeoFn) (db : DB) :
    extractHandler true (.error e) ner geo db = (.err 500 (ocrFailMsg e), db) ∧
    ocrFailMsg e = "OCR failed: " ++ e ∧
    extractHandler true (.error e) ner geo db =
      extractHandler true (.error e) ner2 geo2 db :=
  ⟨rfl, rfl, rfl⟩

/-- C10: whenever `/save` answers with an error — in particular when a point
insert or the commit raises after the claim insert — the single `db.commit()`
was never issued, so the persisted claims and points tables are exactly as
they were before the call. -/
theorem claim_save_error_rollback (st : StorageModel) (db : DB)
    (p : Option Payload) (m : String)
    (h : (save st db p).2 = .error m) :
    (save st db p).1 = db :=
  save_error_eq st db p m h

/-- A sample geocoded entity (the spec's Delhi example). -/
def entDelhi : EntityJson :=
  { label := some "GPE", text := some "Delhi", seqf := some 1,
    coordinates := some ⟨some 28, some 77⟩, geo_error := none }

/-- A sample well-formed `/save` payload. -/
def payDelhi : Payload :=
  { text := some "Delhi", entities := some [entDelhi],
    filename := some "claim.png" }

/-- A storage layer whose first point insert raises. -/
def failPointStorage : StorageModel :=
  ⟨none, fun k => if k = 0 then some "disk I/O error" else none, none⟩

theorem claim_save_error_rollback_witness :
    (save failPointStorage initDB (some payDelhi)).2 = .error "disk I/O error" ∧
    (save failPointStorage initDB (some payDelhi)).1 = initDB :=
  ⟨rfl, claim_save_error_rollback failPointStorage initDB (some payDelhi)
    "disk I/O error" rfl⟩

/-- C1: a fault-free `/save` on payload `{text, entities, filename}` inserts
exactly one Claim row (with the entity list serialized as text), then exactly
one Point row per coordinate-carrying entity, each tagged with the new claim
id and a locally recomputed 1-based `seq` counting only the coordinate-
carrying entities — independent of each entity's original `seq` field (the
inserted rows depend only on `label`, `text` and `coordinates`) — and
returns the new claim id. -/
theorem claim_save_inserts (st : StorageModel) (db : DB) (p : Payload)
    (hst : goodStorage st)
    (hwf : ∀ e ∈ p.entities.getD [], entOK e = true) :
    (save st db (some p)).2 = .ok db.nextClaimId ∧
    (save st db (some p)).1.claims = db.claims ++ [specClaim db p] ∧
    (save st db (some p)).1.points = db.points ++
      specPoints db.nextClaimId (p.entities.getD []) 0 db.nextPointId ∧
    (specPoints db.nextClaimId (p.entities.getD []) 0 db.nextPointId).length =
      (geocoded (p.entities.getD [])).length ∧
    (specPoints db.nextClaimId (p.entities.getD []) 0 db.nextPointId).map
      (fun r => r.seq) =
      List.range' 1 (geocoded (p.entities.getD [])).length ∧
    (∀ r ∈ specPoints db.nextClaimId (p.entities.getD []) 0 db.nextPointId,
      r.claim_id = db.nextClaimId) ∧
    ∀ es2, es2.map entCore = (p.entities.getD []).map entCore →
      specPoints db.nextClaimId es2 0 db.nextPointId =
        specPoints db.nextClaimId (p.entities.getD []) 0 db.nextPointId := by
  rw [save_ok st db p hst hwf]
  exact ⟨rfl, rfl, rfl, specPoints_length _ _ _ _,
    by simpa using specPoints_seq_map db.nextClaimId (p.entities.getD []) 0 db.nextPointId,
    specPoints_claim_id _ _ _ _,
    fun es2 h2 =>
      specPoints_congr db.nextClaimId es2 (p.entities.getD []) 0 db.nextPointId h2⟩

theorem claim_save_inserts_witness :
    goodStorage okStorage ∧
    (∀ e ∈ payDelhi.entities.getD [], entOK e = true) ∧
    (save okStorage initDB (some payDelhi)).2 = .ok initDB.nextClaimId :=
  ⟨⟨rfl, fun _ => rfl, rfl⟩, by decide,
   (claim_save_inserts okStorage initDB payDelhi ⟨rfl, fun _ => rfl, rfl⟩
     (by decide)).1⟩

/-- C2: every successful `/extract` response has exactly one entity per span
the extractor produced, in the extractor's order (the i-th entity is built
from the i-th span), with `seq` fields exactly `1, 2, ..., N` in order. -/
theorem claim_extract_seq (hasFile : Bool) (ocr : Except String String)
    (ner : String → List Span) (geo : GeoFn) (db db2 : DB) (t : String)
    (ents : List EntityJson)
    (h : extractHandler hasFile ocr ner geo db = (.ok t ents, db2)) :
    ents.length = (ner t).length ∧
    (∀ i, ents[i]? = ((ner t)[i]?).map (fun s => mkEnt geo s (i + 1))) ∧
    ents.map (fun e => e.seqf) = (List.range' 1 (ner t).length).map some := by
  match hasFile with
  | false =>
    rw [extractHandler] at h
    simp at h
  | true =>
    match ocr with
    | .error e =>
      rw [extractHandler] at h
      simp at h
    | .ok t0 =>
      rw [extractHandler] at h
      simp only [Prod.mk.injEq, ExtractResp.ok.injEq] at h
      obtain ⟨⟨ht, hents⟩, _⟩ := h
      subst ht
      rw [← hents]
      refine ⟨extractLoop_length geo _ 0, fun i => ?_, ?_⟩
      · rw [extractLoop_getElem? geo]
        have h3 : 0 + i + 1 = i + 1 := by omega
        rw [h3]
      · simpa using extractLoop_seq_map geo _ 0

theorem claim_extract_seq_witness :
    extractHandler true (.ok "Delhi")
        (fun _ => [⟨"GPE", "Delhi"⟩]) (fun _ => .ok (some ⟨28, 77⟩)) initDB =
      (.ok "Delhi" (extractLoop (fun _ => .ok (some ⟨28, 77⟩)) 0
        [⟨"GPE", "Delhi"⟩]), initDB) ∧
    (extractLoop (fun _ => .ok (some ⟨28, 77⟩)) 0 [⟨"GPE", "Delhi"⟩]).length =
      1 ∧
    (extractLoop (fun _ => .ok (some ⟨28, 77⟩)) 0 [⟨"GPE", "Delhi"⟩]).map
      (fun e => e.seqf) = (List.range' 1 1).map some :=
  ⟨rfl,
   (claim_extract_seq true (.ok "Delhi") (fun _ => [⟨"GPE", "Delhi"⟩])
     (fun _ => .ok (some ⟨28, 77⟩)) initDB initDB "Delhi" _ rfl).1,
   (claim_extract_seq true (.ok "Delhi") (fun _ => [⟨"GPE", "Delhi"⟩])
     (fun _ => .ok (some ⟨28, 77⟩)) initDB initDB "Delhi" _ rfl).2.2⟩

/-- C3: geocoding is attempted for an extracted entity iff its label is in
the allow-list (GPE, LOC, FAC, NORP, ORG) and its text is shorter than 120
characters; below the gate the entity never carries `coordinates` or
`geo_error`, and the geocoder is not consulted at all (the entity is the
same for every geocoding adapter). -/
theorem claim_geocode_gate (geo geo2 : GeoFn) (spans : List Span) (i : Nat)
    (hi : i < spans.length) :
    (extractLoop geo 0 spans)[i]? =
      some (mkEnt geo (spans.get ⟨i, hi⟩) (i + 1)) ∧
    (geoAttempt (spans.get ⟨i, hi⟩) =
      (allowedLabels.contains (spans.get ⟨i, hi⟩).label &&
        decide ((spans.get ⟨i, hi⟩).text.length < 120))) ∧
    (geoAttempt (spans.get ⟨i, hi⟩) = false →
      (mkEnt geo (spans.get ⟨i, hi⟩) (i + 1)).coordinates = none ∧
      (mkEnt geo (spans.get ⟨i, hi⟩) (i + 1)).geo_error = none ∧
      mkEnt geo (spans.get ⟨i, hi⟩) (i + 1) =
        mkEnt geo2 (spans.get ⟨i, hi⟩) (i + 1)) := by
  refine ⟨?_, rfl, fun hfalse => mkEnt_not_attempted geo geo2 _ _ hfalse⟩
  rw [extractLoop_getElem? geo spans 0 i]
  have h2 : 0 + i + 1 = i + 1 := by omega
  rw [h2, List.getElem?_eq_getElem hi]
  rfl

theorem claim_geocode_gate_witness :
    (0 : Nat) < 1 ∧
    (extractLoop (fun _ => .ok none) 0 [⟨"DATE", "1999"⟩])[0]? =
      some (mkEnt (fun _ => .ok none) ⟨"DATE", "1999"⟩ 1) ∧
    (geoAttempt (⟨"DATE", "1999"⟩ : Span) = false →
      (mkEnt (fun _ => .ok none) ⟨"DATE", "1999"⟩ 1).coordinates = none) := by
  refine ⟨by decide, ?_, ?_⟩
  · exact (claim_geocode_gate (fun _ => .ok none) (fun _ => .error "x")
      [⟨"DATE", "1999"⟩] 0 (by decide)).1
  · intro hfalse
    exact ((claim_geocode_gate (fun _ => .ok none) (fun _ => .error "x")
      [⟨"DATE", "1999"⟩] 0 (by decide)).2.2 hfalse).1

/-- Counterexample to C4 as stated: for a geocode-attempted entity, a
no-match result (`geocode` returns a falsy value without raising) attaches
no error note at all — the entity ends up with neither `coordinates` nor
`geo_error`, while the claim demands an error note on a no-match. -/
theorem claim_geocode_outcomes_counterexample :
    geoAttempt ⟨"GPE", "Atlantis"⟩ = true ∧
    extractLoop (fun _ => .ok none) 0 [⟨"GPE", "Atlantis"⟩] =
      [{ label := some "GPE", text := some "Atlantis", seqf := some 1,
         coordinates := none, geo_error := none }] :=
  ⟨by decide, rfl⟩

/-- C4 as amended: for every geocode-attempted entity, a successful lookup
attaches coordinates; an exception attaches an error note and no
coordinates; a no-match attaches neither coordinates nor an error note; in
every case the outcome is non-fatal and each other entity of the request is
still built from its own span alone. -/
theorem claim_geocode_outcomes (geo : GeoFn) (spans : List Span) (i : Nat)
    (hi : i < spans.length)
    (hat : geoAttempt (spans.get ⟨i, hi⟩) = true) :
    (extractLoop geo 0 spans)[i]? =
      some (mkEnt geo (spans.get ⟨i, hi⟩) (i + 1)) ∧
    (∀ c, geo (spans.get ⟨i, hi⟩).text = .ok (some c) →
      (mkEnt geo (spans.get ⟨i, hi⟩) (i + 1)).coordinates =
        some ⟨some c.lat, some c.lon⟩ ∧
      (mkEnt geo (spans.get ⟨i, hi⟩) (i + 1)).geo_error = none) ∧
    (geo (spans.get ⟨i, hi⟩).text = .ok none →
      (mkEnt geo (spans.get ⟨i, hi⟩) (i + 1)).coordinates = none ∧
      (mkEnt geo (spans.get ⟨i, hi⟩) (i + 1)).geo_error = none) ∧
    (∀ m, geo (spans.get ⟨i, hi⟩).text = .error m →
      (mkEnt geo (spans.get ⟨i, hi⟩) (i + 1)).coordinates = none ∧
      (mkEnt geo (spans.get ⟨i, hi⟩) (i + 1)).geo_error = some m) ∧
    (∀ j (hj : j < spans.length),
      (extractLoop geo 0 spans)[j]? =
        some (mkEnt geo (spans.get ⟨j, hj⟩) (j + 1))) := by
  have helem : ∀ j (hj : j < spans.length),
      (extractLoop geo 0 spans)[j]? =
        some (mkEnt geo (spans.get ⟨j, hj⟩) (j + 1)) := by
    intro j hj
    rw [extractLoop_getElem? geo spans 0 j]
    have h2 : 0 + j + 1 = j + 1 := by omega
    rw [h2, List.getElem?_eq_getElem hj]
    rfl
  exact ⟨helem i hi,
    fun c hg => mkEnt_geo_match geo _ _ c hat hg,
    fun hg => mkEnt_geo_nomatch geo _ _ hat hg,
    fun m hg => mkEnt_geo_error geo _ _ m hat hg,
    helem⟩

theorem claim_geocode_outcomes_witness :
    (0 : Nat) < 1 ∧
    geoAttempt (⟨"GPE", "Delhi"⟩ : Span) = true ∧
    ((fun _ => Except.ok (some (⟨28, 77⟩ : Coord)) : GeoFn) "Delhi" =
      .ok (some ⟨28, 77⟩) →
      (mkEnt (fun _ => .ok (some ⟨28, 77⟩)) ⟨"GPE", "Delhi"⟩ 1).coordinates =
        some ⟨some 28, some 77⟩) := by
  refine ⟨by decide, by decide, fun hg => ?_⟩
  exact ((claim_geocode_outcomes (fun _ => .ok (some ⟨28, 77⟩))
    [⟨"GPE", "Delhi"⟩] 0 (by decide) (by decide)).2.1 ⟨28, 77⟩ hg).1

/-- An entity whose `coordinates` object lacks both `lat` and `lon`. -/
def entBad : EntityJson :=
  { label := none, text := none, seqf := none,
    coordinates := some ⟨none, none⟩, geo_error := none }

/-- A syntactically valid `/save` payload with a malformed entity. -/
def payBad : Payload :=
  { text := some "", entities := some [entBad], filename := some "f" }

/-- Counterexample to C5 as stated: with a storage layer that never errors,
the payload whose entity has a `coordinates` object without a `lat` key makes
`/save` fail with the `KeyError` message `'lat'` — a failure caused by the
input, not by the storage layer. -/
theorem claim_save_errors_counterexample :
    goodStorage okStorage ∧
    (save okStorage initDB (some payBad)).2 = .error (keyErrMsg "lat") ∧
    keyErrMsg "lat" = "\x27lat\x27" :=
  ⟨⟨rfl, fun _ => rfl, rfl⟩, rfl, rfl⟩

/-- The error message was raised by one of the storage calls of the request. -/
def storageMsg (st : StorageModel) (m : String) : Prop :=
  st.claimInsertErr = some m ∨ (∃ k, st.pointInsertErr k = some m) ∨
    st.commitErr = some m

/-- C5 as amended: on a payload whose coordinate-carrying entities all have
`lat` and `lon` (and a present JSON body), `/save` fails only when the
storage layer itself errors, and then the storage-layer message is surfaced
as-is; when no storage call errors, `/save` succeeds.  (Malformed inputs —
a missing JSON body, or a `coordinates` object lacking `lat` or `lon` — are
a further failure class, per the counterexample.) -/
theorem claim_save_errors_storage (st : StorageModel) (db : DB) (p : Payload)
    (hwf : ∀ e ∈ p.entities.getD [], entOK e = true) :
    (∀ m, (save st db (some p)).2 = .error m → storageMsg st m) ∧
    (goodStorage st → (save st db (some p)).2 = .ok db.nextClaimId) := by
  constructor
  · intro m h
    rw [save.eq_def] at h
    match hci : st.claimInsertErr with
    | some m2 =>
      simp only [hci, Except.error.injEq] at h
      exact Or.inl (by rw [hci, h])
    | none =>
      simp only [hci] at h
      match hsp : savePoints st db.nextClaimId (p.entities.getD []) 0
          db.nextPointId with
      | .error m3 =>
        simp only [hsp, Except.error.injEq] at h
        exact Or.inr (Or.inl (h ▸
          savePoints_error_storage st db.nextClaimId (p.entities.getD [])
            0 db.nextPointId m3 hwf hsp))
      | .ok pr =>
        simp only [hsp] at h
        match hco : st.commitErr with
        | some m4 =>
          simp only [hco, Except.error.injEq] at h
          exact Or.inr (Or.inr (by rw [hco, h]))
        | none =>
          simp only [hco] at h
          exact Except.noConfusion h
  · intro hst
    rw [save_ok st db p hst hwf]

theorem claim_save_errors_storage_witness :
    (∀ e ∈ payDelhi.entities.getD [], entOK e = true) ∧
    (goodStorage okStorage →
      (save okStorage initDB (some payDelhi)).2 = .ok initDB.nextClaimId) :=
  ⟨by decide,
   (claim_save_errors_storage okStorage initDB payDelhi (by decide)).2⟩

/-- C9: saving the same well-formed payload twice (with a fault-free storage
layer) creates two distinct Claim rows — no deduplication — and adds twice
the payload's geocoded-entity count of Point rows. -/
theorem claim_save_twice (st : StorageModel) (db : DB) (p : Payload)
    (hst : goodStorage st)
    (hwf : ∀ e ∈ p.entities.getD [], entOK e = true) :
    (save st db (some p)).2 = .ok db.nextClaimId ∧
    (save st ((save st db (some p)).1) (some p)).2 =
      .ok (db.nextClaimId + 1) ∧
    (save st ((save st db (some p)).1) (some p)).1.claims.length =
      db.claims.length + 2 ∧
    (save st ((save st db (some p)).1) (some p)).1.points.length =
      db.points.length + 2 * (geocoded (p.entities.getD [])).length ∧
    ∃ c1 c2, (save st ((save st db (some p)).1) (some p)).1.claims =
      db.claims ++ [c1, c2] ∧ c1.id ≠ c2.id := by
  have h1 := save_ok st db p hst hwf
  rw [h1]
  set db1 : DB :=
    { claims := db.claims ++ [specClaim db p],
      points := db.points ++
        specPoints db.nextClaimId (p.entities.getD []) 0 db.nextPointId,
      nextClaimId := db.nextClaimId + 1,
      nextPointId :=
        db.nextPointId + (geocoded (p.entities.getD [])).length } with hdb1
  have h2 := save_ok st db1 p hst hwf
  rw [h2]
  refine ⟨rfl, rfl, ?_, ?_, specClaim db p, specClaim db1 p, ?_, ?_⟩
  · simp [hdb1, specClaim]
  · simp only [hdb1, List.length_append, specPoints_length]
    omega
  · simp [hdb1, specClaim]
  · simp [specClaim, hdb1]

theorem claim_save_twice_witness :
    goodStorage okStorage ∧
    (∀ e ∈ payDelhi.entities.getD [], entOK e = true) ∧
    (save okStorage ((save okStorage initDB (some payDelhi)).1)
      (some payDelhi)).1.claims.length = initDB.claims.length + 2 :=
  ⟨⟨rfl, fun _ => rfl, rfl⟩, by decide,
   (claim_save_twice okStorage initDB payDelhi ⟨rfl, fun _ => rfl, rfl⟩
     (by decide)).2.2.1⟩

end TribalGIS
